import Mathlib

/-!
Verification of the CSTA trade-up opportunity-discovery engine.

The definitions below are a shallow embedding of the Python source:
  - `src/src/comprehensive_trade_finder.py` (float scaler, condition table,
    single- and mixed-collection trade-up calculations, price validation loop)
  - `src/src/calculator.py` (`_calculate_outputs`, `_calculate_trade_up_value`)
  - `src/src/runtime_pricing.py` (`validate_and_correct_price`, `is_price_reasonable`)
Money values and wear floats are modelled as rationals (ℚ).
-/

namespace CSTA

/-! ### Float scaler

Embeds `ComprehensiveTradeUpFinder._calculate_output_float_and_condition`
(comprehensive_trade_finder.py lines 1145-1190).  The input skin's float
range is passed explicitly; when the Python code receives no input skin it
uses the fallback range [0.06, 0.8], modelled by `fallbackInputRange`. -/

/-- Wear condition from a float value, fixed thresholds
(comprehensive_trade_finder.py lines 1179-1188, identical in
`_get_wear_from_float` lines 1192-1203). -/
def conditionFromFloat (f : ℚ) : String :=
  if f < 7/100 then "Factory New"
  else if f < 15/100 then "Minimal Wear"
  else if f < 38/100 then "Field-Tested"
  else if f < 45/100 then "Well-Worn"
  else "Battle-Scarred"

/-- Relative position of the input float within the input skin's range;
0 when the range is degenerate (lines 1164-1167). -/
def relativePosition (inputFloat inMin inMax : ℚ) : ℚ :=
  if inMin < inMax then (inputFloat - inMin) / (inMax - inMin) else 0

/-- Fallback input float range used when no input skin data is available
(lines 1158-1161). -/
def fallbackInputRange : ℚ × ℚ := (6/100, 8/10)

/-- Output float and predicted condition (lines 1145-1190): clamp the
relative position to [0,1], scale into the output range, clamp again. -/
def calculateOutputFloatAndCondition (inputFloat inMin inMax outMin outMax : ℚ) :
    ℚ × String :=
  let rel := relativePosition inputFloat inMin inMax
  let relClamped := max 0 (min 1 rel)
  let scaled := outMin + relClamped * (outMax - outMin)
  let scaledClamped := max outMin (min outMax scaled)
  (scaledClamped, conditionFromFloat scaledClamped)

/-! ### Representative input float per wear bucket

Embeds `ComprehensiveTradeUpFinder._get_condition_float`
(comprehensive_trade_finder.py lines 913-934).  Rows returned by
`get_skins_by_collection_and_rarity` always carry a `condition_name`
column (possibly NULL), modelled as `Option String`; a NULL or an
unrecognized name falls through to the 0.265 default. -/
def getConditionFloat (conditionName : Option String) : ℚ :=
  match conditionName with
  | some c =>
    if c = "Factory New" then 1/100
    else if c = "Minimal Wear" then 8/100
    else if c = "Field-Tested" then 16/100
    else if c = "Well-Worn" then 39/100
    else if c = "Battle-Scarred" then 46/100
    else 53/200
  | none => 53/200

/-! ### Trade-up result calculations (comprehensive_trade_finder.py)

An output candidate's resolved accepted price is modelled as `Option ℚ`:
`some p` when the cached-price lookup plus validation gating of lines
265-295 (single path) resp. lines 1283-1284 / 1300-1301 (mixed path)
yields a usable price, `none` otherwise.  The code keeps a candidate
exactly when `price and float(price) > 0`. -/

/-- Prices of output candidates that pass the `price and float(price) > 0`
guard, in list order. -/
def acceptedPrices : List (Option ℚ) → List ℚ
  | [] => []
  | some p :: t => if 0 < p then p :: acceptedPrices t else acceptedPrices t
  | none :: t => acceptedPrices t

/-- Python `min` over a nonempty list (0 for the never-hit empty case). -/
def listMin : List ℚ → ℚ
  | [] => 0
  | h :: t => t.foldl min h

/-- Fields of the `TradeUpResult` that the finder builds, restricted to
what the analysis computes: the `(price, probability)` pair of every
`OutputSkin` in creation order, `expected_output_price` (stored after the
0.85 fee), `raw_profit`, `roi_percentage`, `guaranteed_profit`,
`min_output_price`. -/
structure TradeUpResultE where
  candidates : List (ℚ × ℚ)
  expectedOutputPrice : ℚ
  rawProfit : ℚ
  roiPercentage : ℚ
  guaranteedProfit : Bool
  minOutputPrice : ℚ
  deriving DecidableEq

/-- The `(price, probability)` pairs the single-collection path builds:
probability is `1.0 / len(valid_priced_outputs)`
(comprehensive_trade_finder.py lines 299-305). -/
def singleCandidates (outputs : List (Option ℚ)) : List (ℚ × ℚ) :=
  (acceptedPrices outputs).map
    (fun p => (p, 1 / ((acceptedPrices outputs).length : ℚ)))

/-- The `TradeUpResult` fields computed by the per-condition body of
`_calculate_single_collection_tradeup` (comprehensive_trade_finder.py
lines 296-355): the 15% fee multiplies the expected value (line 322),
`guaranteed_profit` is the literal `False` of line 353 and
`min_output_price` is the minimum accepted price (line 354). -/
def singleTradeupRecord (outputs : List (Option ℚ)) (cheapestPrice : ℚ) :
    TradeUpResultE :=
  let totalInputCost := cheapestPrice * 10
  let cands := singleCandidates outputs
  let expectedOutputValue := (cands.map (fun c => c.1 * c.2)).sum * (85/100)
  let expectedProfit := expectedOutputValue - totalInputCost
  ⟨cands, expectedOutputValue, expectedProfit,
   expectedProfit / totalInputCost * 100, false, listMin (acceptedPrices outputs)⟩

/-- Embeds the per-condition body of
`ComprehensiveTradeUpFinder._calculate_single_collection_tradeup`
(comprehensive_trade_finder.py lines 257-355): given the deduplicated
output pool with resolved accepted prices, the cheapest input price and
the running profit threshold (`best_profit`, initially `min_profit`),
a result is produced only when some output is priced (line 296) and the
expected profit strictly beats the threshold (line 325). -/
def calculateSingleCollectionTradeup (outputs : List (Option ℚ))
    (cheapestPrice bestProfit : ℚ) : Option TradeUpResultE :=
  if acceptedPrices outputs = [] then none
  else if bestProfit < (singleTradeupRecord outputs cheapestPrice).rawProfit then
    some (singleTradeupRecord outputs cheapestPrice)
  else none

/-- Per-output probability of the mixed-collection path, line 1285 resp.
1302: `(count * k) / sum_over_collections / k` where `k` is the length of
the collection's marketable output pool and `sum_over_collections` is
`primary_count * k_primary + secondary_count * k_secondary`. -/
def mixedOutputProbability (count k sumOverCollections : ℕ) : ℚ :=
  ((count * k : ℕ) : ℚ) / (sumOverCollections : ℚ) / (k : ℚ)

/-- `sum_over_collections` of the mixed-collection path (line 1272). -/
def sumOverCollections (primaryCount secondaryCount kPrimary kSecondary : ℕ) : ℕ :=
  primaryCount * kPrimary + secondaryCount * kSecondary

/-- The `OutputSkin` list of the mixed-collection path as `(price,
probability)` pairs: primary-collection candidates first (lines
1281-1296), then secondary (lines 1298-1313), keeping only outputs with
an accepted positive price. -/
def mixedCandidates (primaryCount secondaryCount : ℕ)
    (primaryOutputs secondaryOutputs : List (Option ℚ)) : List (ℚ × ℚ) :=
  let s := sumOverCollections primaryCount secondaryCount
    primaryOutputs.length secondaryOutputs.length
  (acceptedPrices primaryOutputs).map
      (fun p => (p, mixedOutputProbability primaryCount primaryOutputs.length s)) ++
    (acceptedPrices secondaryOutputs).map
      (fun p => (p, mixedOutputProbability secondaryCount secondaryOutputs.length s))

/-- The `TradeUpResult` fields computed by
`_calculate_mixed_collection_tradeup` (lines 1264-1366): the fee
multiplies the expected value (line 1319), `guaranteed_profit` is the
literal `False` of line 1364, `min_output_price` the minimum candidate
price (line 1365). -/
def mixedTradeupRecord (primaryCount secondaryCount : ℕ)
    (primaryOutputs secondaryOutputs : List (Option ℚ))
    (primaryPrice secondaryPrice : ℚ) : TradeUpResultE :=
  let totalInputCost := primaryPrice * primaryCount + secondaryPrice * secondaryCount
  let cands := mixedCandidates primaryCount secondaryCount primaryOutputs secondaryOutputs
  let expectedOutputValue := (cands.map (fun c => c.1 * c.2)).sum * (85/100)
  let expectedProfit := expectedOutputValue - totalInputCost
  ⟨cands, expectedOutputValue, expectedProfit,
   expectedProfit / totalInputCost * 100, false, listMin (cands.map (fun c => c.1))⟩

/-- Embeds `ComprehensiveTradeUpFinder._calculate_mixed_collection_tradeup`
(comprehensive_trade_finder.py lines 1205-1366) from the point where the
marketable output pools are known: empty output pools are rejected (lines
1243-1244), a zero `sum_over_collections` is rejected (lines 1274-1275),
a configuration with no priced candidate is rejected (lines 1315-1316)
and one whose expected profit is below `min_profit` is rejected (lines
1322-1323). -/
def calculateMixedCollectionTradeup (primaryCount secondaryCount : ℕ)
    (primaryOutputs secondaryOutputs : List (Option ℚ))
    (primaryPrice secondaryPrice minProfit : ℚ) : Option TradeUpResultE :=
  if primaryOutputs = [] ∨ secondaryOutputs = [] then none
  else if sumOverCollections primaryCount secondaryCount
      primaryOutputs.length secondaryOutputs.length = 0 then none
  else if mixedCandidates primaryCount secondaryCount primaryOutputs secondaryOutputs
      = [] then none
  else if (mixedTradeupRecord primaryCount secondaryCount primaryOutputs
      secondaryOutputs primaryPrice secondaryPrice).rawProfit < minProfit then none
  else some (mixedTradeupRecord primaryCount secondaryCount primaryOutputs
      secondaryOutputs primaryPrice secondaryPrice)

/-! ### Simple trade-up analysis financials

Embeds the financial summary of
`ComprehensiveTradeUpFinder._calculate_simple_tradeup_analysis`
(comprehensive_trade_finder.py lines 1033-1097): here each priced output
contributes `price * (1 / len(marketable_outputs))` over the FULL pool
(line 1047), the selling fee is a parameter with default 0.15, and
`roi_percentage = expected_profit / input_cost * 100`. -/
structure FinancialSummary where
  totalInputCost : ℚ
  expectedOutputValue : ℚ
  netExpectedValue : ℚ
  expectedProfit : ℚ
  roiPercentage : ℚ
  deriving DecidableEq

/-- Financial summary of `_calculate_simple_tradeup_analysis` given the
marketable output pool (entries carry their resolved price, if any), the
cheapest input price and the selling fee rate. -/
def simpleFinancialSummary (pool : List (Option ℚ)) (cheapestPrice sellingFeeRate : ℚ) :
    FinancialSummary :=
  let inputCost := cheapestPrice * 10
  let totalExpectedValue :=
    ((acceptedPrices pool).map (fun p => p * (1 / (pool.length : ℚ)))).sum
  let netExpectedValue := totalExpectedValue * (1 - sellingFeeRate)
  let expectedProfit := netExpectedValue - inputCost
  ⟨inputCost, totalExpectedValue, netExpectedValue, expectedProfit,
   expectedProfit / inputCost * 100⟩

/-! ### calculator.py : output probabilities and trade-up value -/

/-- A successor-rarity skin as seen by `TradeUpCalculator`: its collection
name (the `skin.collection` field used for grouping), price and
marketable flag. -/
structure CalcSkin where
  name : String
  collection : String
  price : ℚ
  marketable : Bool
  deriving DecidableEq

/-- A contributing collection with its successor-rarity skin list
(`collection.skins_by_rarity[output_rarity]`). -/
structure CalcCollection where
  name : String
  outputs : List CalcSkin
  deriving DecidableEq

/-- `possible_outputs` of `TradeUpCalculator._calculate_outputs`
(calculator.py lines 236-257): the marketable successor skins of every
contributing collection, in order. -/
def possibleOutputs (colls : List CalcCollection) : List CalcSkin :=
  colls.flatMap (fun c => c.outputs.filter (fun s => s.marketable))

/-- `total_weight` of `_calculate_outputs` (lines 233-246): the sum of
the FULL successor skin-list lengths, counting non-marketable skins. -/
def totalWeight (colls : List CalcCollection) : ℕ :=
  (colls.map (fun c => c.outputs.length)).sum

/-- Embeds `TradeUpCalculator._calculate_outputs` (calculator.py lines
230-280).  Outputs are grouped by their `skin.collection` field; each
output of a group of size `g` receives `(g / total_weight) / g`.  When
`total_weight` is 0 the empty list is returned. -/
def calcOutputs (colls : List CalcCollection) : List (CalcSkin × ℚ) :=
  let tw := totalWeight colls
  if tw = 0 then []
  else
    let pool := possibleOutputs colls
    pool.map (fun s =>
      let groupLen := (pool.filter (fun t => t.collection = s.collection)).length
      (s, ((groupLen : ℚ) / (tw : ℚ)) / (groupLen : ℚ)))

/-- Embeds `TradeUpCalculator._calculate_trade_up_value` (calculator.py
lines 282-317) over the `(price, probability)` pairs of the possible
outputs: returns `(expected_profit, min_profit, max_profit,
guaranteed_profit)`; `guaranteed_profit` is `some (min_profit)` exactly
when `min_profit > 0`, with no fee applied anywhere. -/
def calculateTradeUpValue (outputs : List (ℚ × ℚ)) (totalCost : ℚ) :
    ℚ × ℚ × ℚ × Option ℚ :=
  match outputs with
  | [] => (0, 0, 0, none)
  | h :: t =>
    let expectedOutputValue := ((h :: t).map (fun o => o.1 * o.2)).sum
    let expectedProfit := expectedOutputValue - totalCost
    let minOutputPrice := (t.map (fun o => o.1)).foldl min h.1
    let maxOutputPrice := (t.map (fun o => o.1)).foldl max h.1
    let minProfit := minOutputPrice - totalCost
    let maxProfit := maxOutputPrice - totalCost
    (expectedProfit, minProfit, maxProfit,
     if 0 < minProfit then some minProfit else none)

/-! ### Price validation pipeline

Embeds the per-item body of `ComprehensiveTradeUpFinder._validate_prices`
(comprehensive_trade_finder.py lines 829-878, after the souvenir filter)
together with `RuntimePricingClient.validate_and_correct_price` and
`is_price_reasonable` (runtime_pricing.py lines 282-335).  The
authoritative Steam quote that `get_steam_market_price` would produce is
passed in as an `Option ℚ` oracle value. -/

/-- Validation status stored in `price_validation_status`
(comprehensive_database.py `get_price_validation_status`,
`mark_price_validation_status`). -/
inductive ValidationStatus where
  | unvalidated
  | valid
  | invalid
  deriving DecidableEq

/-- A row of the persisted validation store for one item. -/
structure ValidationRecord where
  status : ValidationStatus
  steamPrice : Option ℚ
  discrepancyPercent : Option ℚ
  deriving DecidableEq

/-- Observable outcome of one `_validate_prices` iteration for one item:
whether the Authoritative Price Source was queried, the accepted price
put into `validated_prices` (`none` = the item is excluded/rejected), and
the record written back by `mark_price_validation_status` (`none` = no
write). -/
structure ValidationStepResult where
  usedAuthoritativeSource : Bool
  accepted : Option ℚ
  writtenRecord : Option ValidationRecord
  deriving DecidableEq

/-- Per-rarity price ceilings of `RuntimePricingClient.is_price_reasonable`
(runtime_pricing.py lines 285-295), default 50 for unknown rarities. -/
def maxReasonablePrice (rarity : String) : ℚ :=
  if rarity = "Consumer Grade" then 3
  else if rarity = "Industrial Grade" then 10
  else if rarity = "Mil-Spec Grade" then 25
  else if rarity = "Restricted" then 100
  else if rarity = "Classified" then 300
  else if rarity = "Covert" then 1000
  else 50

/-- `is_price_reasonable` (runtime_pricing.py lines 282-301): the price
must lie within the hard floor 0.03 and the rarity ceiling. -/
def isPriceReasonable (price : ℚ) (rarity : String) : Bool :=
  ¬(price < 3/100 ∨ maxReasonablePrice rarity < price)

/-- Embeds `RuntimePricingClient.validate_and_correct_price`
(runtime_pricing.py lines 303-335), with the Steam quote as an oracle:
no Steam price or implausible Steam price rejects; otherwise the
discrepancy `|external - steam| / steam * 100` is compared with the
tolerance and the STEAM price is returned on acceptance. -/
def validateAndCorrectPrice (externalPrice : ℚ) (rarity : String)
    (steamPrice : Option ℚ) (tolerancePercent : ℚ) : Option ℚ :=
  match steamPrice with
  | none => none
  | some sp =>
    if ¬(isPriceReasonable sp rarity) then none
    else if 0 < sp then
      let priceDifferencePercent := |externalPrice - sp| / sp * 100
      if priceDifferencePercent ≤ tolerancePercent then some sp else none
    else some sp

/-- Embeds one iteration of the `_validate_prices` loop
(comprehensive_trade_finder.py lines 838-878) for a non-souvenir item,
given the current stored record, the external price and the result the
remote validation (`validate_and_correct_price`) would produce:
an `invalid` record rejects with no network call and no write; a `valid`
record with a truthy cached Steam price accepts it with no network call;
otherwise the remote result decides and the record is marked `valid`
(with the accepted price and its discrepancy) or `invalid`. -/
def validatePriceItem (record : Option ValidationRecord) (externalPrice : ℚ)
    (remoteResult : Option ℚ) : ValidationStepResult :=
  let remoteCase : ValidationStepResult :=
    match remoteResult with
    | some vp =>
      let discrepancy := if 0 < vp then |externalPrice - vp| / vp * 100 else 0
      ⟨true, some vp, some ⟨.valid, some vp, some discrepancy⟩⟩
    | none => ⟨true, none, some ⟨.invalid, none, none⟩⟩
  match record with
  | some r =>
    match r.status with
    | .invalid => ⟨false, none, none⟩
    | .valid =>
      match r.steamPrice with
      | some sp => if sp = 0 then remoteCase else ⟨false, some sp, none⟩
      | none => remoteCase
    | .unvalidated => remoteCase
  | none => remoteCase

/-- The stored record after one validation step: a write replaces it,
otherwise it is unchanged. -/
def recordAfterStep (record : Option ValidationRecord)
    (step : ValidationStepResult) : Option ValidationRecord :=
  match step.writtenRecord with
  | some r => some r
  | none => record

/-- Run a sequence of validation calls for one item; each call is an
(external price, remote oracle result) pair.  Returns the step results in
order. -/
def runValidationCalls (record : Option ValidationRecord) :
    List (ℚ × Option ℚ) → List ValidationStepResult
  | [] => []
  | c :: rest =>
    let step := validatePriceItem record c.1 c.2
    step :: runValidationCalls (recordAfterStep record step) rest

/-! ## Helper lemmas -/

/-- On a non-degenerate range, a float inside the range scales back to
itself when the output range equals the input range. -/
lemma scale_self_of_mem (x lo hi : ℚ) (hlo : lo ≤ x) (hhi : x ≤ hi) :
    (calculateOutputFloatAndCondition x lo hi lo hi).1 = x := by
  unfold calculateOutputFloatAndCondition relativePosition
  by_cases h : lo < hi
  · have hpos : 0 < hi - lo := by linarith
    have hne : hi - lo ≠ 0 := ne_of_gt hpos
    have h0 : 0 ≤ (x - lo) / (hi - lo) := div_nonneg (by linarith) (le_of_lt hpos)
    have h1 : (x - lo) / (hi - lo) ≤ 1 := by
      rw [div_le_one hpos]; linarith
    simp only [if_pos h, min_eq_right h1, max_eq_right h0]
    have hs : lo + (x - lo) / (hi - lo) * (hi - lo) = x := by
      field_simp
    rw [hs, min_eq_right hhi, max_eq_right hlo]
  · have hle : hi ≤ lo := not_lt.mp h
    have hx : x = lo := le_antisymm (le_trans hhi hle) hlo
    have hhl : hi = lo := le_antisymm hle (le_trans hlo hhi)
    simp only [if_neg h, hhl, hx]
    norm_num

/-- A returned single-collection result is exactly the record of the
priced pool. -/
lemma single_eq_some {outs : List (Option ℚ)} {price bp : ℚ} {r : TradeUpResultE}
    (h : calculateSingleCollectionTradeup outs price bp = some r) :
    acceptedPrices outs ≠ [] ∧ r = singleTradeupRecord outs price := by
  unfold calculateSingleCollectionTradeup at h
  by_cases h1 : acceptedPrices outs = []
  · rw [if_pos h1] at h
    exact absurd h (by simp)
  · rw [if_neg h1] at h
    by_cases h2 : bp < (singleTradeupRecord outs price).rawProfit
    · rw [if_pos h2] at h
      exact ⟨h1, (Option.some.inj h).symm⟩
    · rw [if_neg h2] at h
      exact absurd h (by simp)

/-- A returned mixed-collection result is exactly the record of the two
pools, and both pools are nonempty. -/
lemma mixed_eq_some {nP nS : ℕ} {pO sO : List (Option ℚ)} {pp ssp mp : ℚ}
    {r : TradeUpResultE}
    (h : calculateMixedCollectionTradeup nP nS pO sO pp ssp mp = some r) :
    pO ≠ [] ∧ sO ≠ [] ∧ sumOverCollections nP nS pO.length sO.length ≠ 0 ∧
      r = mixedTradeupRecord nP nS pO sO pp ssp := by
  unfold calculateMixedCollectionTradeup at h
  by_cases h1 : pO = [] ∨ sO = []
  · rw [if_pos h1] at h
    exact absurd h (by simp)
  · rw [if_neg h1] at h
    by_cases h2 : sumOverCollections nP nS pO.length sO.length = 0
    · rw [if_pos h2] at h
      exact absurd h (by simp)
    · rw [if_neg h2] at h
      by_cases h3 : mixedCandidates nP nS pO sO = []
      · rw [if_pos h3] at h
        exact absurd h (by simp)
      · rw [if_neg h3] at h
        by_cases h4 : (mixedTradeupRecord nP nS pO sO pp ssp).rawProfit < mp
        · rw [if_pos h4] at h
          exact absurd h (by simp)
        · rw [if_neg h4] at h
          obtain ⟨hp, hs⟩ := not_or.mp h1
          exact ⟨hp, hs, h2, (Option.some.inj h).symm⟩

/-- The mixed-path probability `(count * k) / s / k` collapses to
`count / s` whenever the pool size `k` is nonzero. -/
lemma mixedOutputProbability_eq_div (count k s : ℕ) (hk : k ≠ 0) :
    mixedOutputProbability count k s = (count : ℚ) / (s : ℚ) := by
  unfold mixedOutputProbability
  have hkQ : (k : ℚ) ≠ 0 := Nat.cast_ne_zero.mpr hk
  by_cases hs : (s : ℚ) = 0
  · rw [hs]
    simp
  · push_cast
    field_simp
    ring

/-! ## Claim theorems -/

/-- C7: the float scaler is an identity on equal ranges — for every input
float inside a range, scaling from that range to the same range returns
the input itself; and for input float 0.265 with input and output ranges
both [0.15, 0.38] the relative position is 0.5, the output float is 0.265
and the predicted condition is Field-Tested (scenario A). -/
theorem floatScaler_identity_on_equal_ranges :
    (∀ x lo hi : ℚ, lo ≤ x → x ≤ hi →
        (calculateOutputFloatAndCondition x lo hi lo hi).1 = x) ∧
    relativePosition (265/1000) (15/100) (38/100) = 1/2 ∧
    calculateOutputFloatAndCondition (265/1000) (15/100) (38/100) (15/100) (38/100) =
      (265/1000, "Field-Tested") := by
  refine ⟨scale_self_of_mem, ?_, ?_⟩
  · unfold relativePosition
    norm_num
  · unfold calculateOutputFloatAndCondition relativePosition conditionFromFloat
    norm_num

/-- Witness for C7: the identity theorem applied at the concrete scenario-A
input 0.265 with range [0.15, 0.38]. -/
theorem floatScaler_identity_on_equal_ranges_witness :
    (calculateOutputFloatAndCondition (265/1000) (15/100) (38/100) (15/100)
      (38/100)).1 = 265/1000 :=
  floatScaler_identity_on_equal_ranges.1 (265/1000) (15/100) (38/100)
    (by norm_num) (by norm_num)

/-- C8: the float scaler is total and its result lies in the target range —
for every input float, input range and output range with
`outLo ≤ outHi`, the scaled float satisfies `outLo ≤ result ≤ outHi`; and
on a degenerate input range the relative position is 0, so no division by
zero occurs. -/
theorem floatScaler_result_in_output_range :
    (∀ x inLo inHi outLo outHi : ℚ, outLo ≤ outHi →
        outLo ≤ (calculateOutputFloatAndCondition x inLo inHi outLo outHi).1 ∧
        (calculateOutputFloatAndCondition x inLo inHi outLo outHi).1 ≤ outHi) ∧
    (∀ x m : ℚ, relativePosition x m m = 0) := by
  constructor
  · intro x inLo inHi outLo outHi hle
    unfold calculateOutputFloatAndCondition
    exact ⟨le_max_left _ _, max_le hle (min_le_left _ _)⟩
  · intro x m
    unfold relativePosition
    simp

/-- Witness for C8: the range bound applied at input float 0.9 with input
range [0.2, 0.2] (degenerate) and output range [0.1, 0.4]. -/
theorem floatScaler_result_in_output_range_witness :
    (1/10 : ℚ) ≤ (calculateOutputFloatAndCondition (9/10) (2/10) (2/10) (1/10)
        (4/10)).1 ∧
    (calculateOutputFloatAndCondition (9/10) (2/10) (2/10) (1/10) (4/10)).1 ≤
      4/10 :=
  floatScaler_result_in_output_range.1 (9/10) (2/10) (2/10) (1/10) (4/10)
    (by norm_num)

/-- C10: the representative input float per wear condition is the fixed
low-end value of the bucket — Factory New 0.01, Minimal Wear 0.08,
Field-Tested 0.16, Well-Worn 0.39, Battle-Scarred 0.46 — and 0.265 for a
missing (NULL) or unrecognized condition; the named conditions do not map
to the true bucket midpoints 0.035, 0.11, 0.265, 0.415, 0.725. -/
theorem conditionFloat_low_end_table :
    getConditionFloat (some "Factory New") = 1/100 ∧
    getConditionFloat (some "Minimal Wear") = 8/100 ∧
    getConditionFloat (some "Field-Tested") = 16/100 ∧
    getConditionFloat (some "Well-Worn") = 39/100 ∧
    getConditionFloat (some "Battle-Scarred") = 46/100 ∧
    getConditionFloat none = 53/200 ∧
    (∀ c : String, c ≠ "Factory New" → c ≠ "Minimal Wear" →
      c ≠ "Field-Tested" → c ≠ "Well-Worn" → c ≠ "Battle-Scarred" →
      getConditionFloat (some c) = 53/200) ∧
    getConditionFloat (some "Factory New") ≠ 35/1000 ∧
    getConditionFloat (some "Minimal Wear") ≠ 11/100 ∧
    getConditionFloat (some "Field-Tested") ≠ 53/200 ∧
    getConditionFloat (some "Well-Worn") ≠ 415/1000 ∧
    getConditionFloat (some "Battle-Scarred") ≠ 725/1000 := by
  refine ⟨?_, ?_, ?_, ?_, ?_, ?_, ?_, ?_, ?_, ?_, ?_, ?_⟩ <;>
    first
      | (intro c h1 h2 h3 h4 h5
         simp [getConditionFloat, h1, h2, h3, h4, h5])
      | (simp [getConditionFloat]
         try norm_num)

/-- Witness for C10: the unrecognized-condition branch applied at the
concrete condition name "Doppler". -/
theorem conditionFloat_low_end_table_witness :
    getConditionFloat (some "Doppler") = 53/200 :=
  conditionFloat_low_end_table.2.2.2.2.2.2.1 "Doppler" (by decide) (by decide)
    (by decide) (by decide) (by decide)

/-- C9: net value, profit and ROI follow `net = expected * (1 - fee)`,
`profit = net - cost`, `roi% = profit / cost * 100`, the default fee
0.15 coincides with the hard-coded 0.85 multiplier, and scenario B —
10 inputs at $0.50 (cost $5.00), three equally likely outputs at
$2.00/$3.00/$4.00, fee 0.15 — yields expected output value $3.00, net
$2.55, profit $-2.45, ROI −49%, `guaranteed_profit = false`. -/
theorem netValue_profit_roi_formulas :
    (∀ (pool : List (Option ℚ)) (cheapestPrice sellingFeeRate : ℚ),
        (simpleFinancialSummary pool cheapestPrice sellingFeeRate).netExpectedValue =
          (simpleFinancialSummary pool cheapestPrice sellingFeeRate).expectedOutputValue *
            (1 - sellingFeeRate) ∧
        (simpleFinancialSummary pool cheapestPrice sellingFeeRate).expectedProfit =
          (simpleFinancialSummary pool cheapestPrice sellingFeeRate).netExpectedValue -
            (simpleFinancialSummary pool cheapestPrice sellingFeeRate).totalInputCost ∧
        (simpleFinancialSummary pool cheapestPrice sellingFeeRate).roiPercentage =
          (simpleFinancialSummary pool cheapestPrice sellingFeeRate).expectedProfit /
            (simpleFinancialSummary pool cheapestPrice sellingFeeRate).totalInputCost *
              100) ∧
    (∀ v : ℚ, v * (1 - 15/100) = v * (85/100)) ∧
    simpleFinancialSummary [some 2, some 3, some 4] (1/2) (15/100) =
      ⟨5, 3, 51/20, -49/20, -49⟩ ∧
    calculateSingleCollectionTradeup [some 2, some 3, some 4] (1/2) (-3) =
      some ⟨[(2, 1/3), (3, 1/3), (4, 1/3)], 51/20, -49/20, -49, false, 2⟩ := by
  refine ⟨fun pool p f => ⟨rfl, rfl, rfl⟩, fun v => by ring, ?_, ?_⟩
  · norm_num [simpleFinancialSummary, acceptedPrices, FinancialSummary.mk.injEq]
  · norm_num [calculateSingleCollectionTradeup, singleTradeupRecord,
      singleCandidates, acceptedPrices, listMin, List.foldl, min_def,
      TradeUpResultE.mk.injEq]
    exact fun h => absurd h (List.cons_ne_nil _ _)

/-- Counterexample to C1: a 9/1 mixed configuration whose primary
collection has 1 output and whose secondary has 2.  The code assigns the
primary output probability 9/11 (from `(9*1)/(9*1+1*2)/1`), not the
claimed `(9/10) × (1/1) = 9/10`. -/
theorem mixedProbability_formula_counterexample :
    (calculateMixedCollectionTradeup 9 1 [some 2] [some 3, some 4] 1 1
        (-100)).map (fun r => r.candidates.map (fun c => c.2)) =
      some [9/11, 1/11, 1/11] ∧
    (9/11 : ℚ) ≠ (9/10) * (1/1) := by
  constructor
  · norm_num [calculateMixedCollectionTradeup, mixedTradeupRecord,
      mixedCandidates, mixedOutputProbability, sumOverCollections,
      acceptedPrices, listMin, List.foldl, min_def]
    exact ⟨_, ⟨by simp, by simp, rfl⟩, by simp⟩
  · norm_num

/-- C1 (amended): in the mixed-collection path every candidate of the
primary collection receives probability `n_P / (n_P·k_P + n_S·k_S)` and
every secondary candidate `n_S / (n_P·k_P + n_S·k_S)`; in the
single-collection path candidates are uniform over the accepted-priced
distinct outputs; and `_calculate_outputs` of calculator.py assigns every
output `1 / Σ_C k_C`. -/
theorem mixedProbability_formula_amended :
    (∀ (nP nS : ℕ) (pO sO : List (Option ℚ)) (pp ssp mp : ℚ)
        (r : TradeUpResultE),
        calculateMixedCollectionTradeup nP nS pO sO pp ssp mp = some r →
        r.candidates =
          (acceptedPrices pO).map (fun p => (p,
            (nP : ℚ) / (sumOverCollections nP nS pO.length sO.length : ℚ))) ++
          (acceptedPrices sO).map (fun p => (p,
            (nS : ℚ) / (sumOverCollections nP nS pO.length sO.length : ℚ)))) ∧
    (∀ (outs : List (Option ℚ)) (price bp : ℚ) (r : TradeUpResultE),
        calculateSingleCollectionTradeup outs price bp = some r →
        r.candidates = (acceptedPrices outs).map
          (fun p => (p, 1 / ((acceptedPrices outs).length : ℚ)))) ∧
    (∀ (colls : List CalcCollection) (s : CalcSkin) (q : ℚ),
        (s, q) ∈ calcOutputs colls → q = 1 / (totalWeight colls : ℚ)) := by
  refine ⟨?_, ?_, ?_⟩
  · intro nP nS pO sO pp ssp mp r h
    obtain ⟨hp, hs, -, hr⟩ := mixed_eq_some h
    have hkP : pO.length ≠ 0 := fun hl => hp (List.length_eq_zero.mp hl)
    have hkS : sO.length ≠ 0 := fun hl => hs (List.length_eq_zero.mp hl)
    subst hr
    show mixedCandidates nP nS pO sO = _
    unfold mixedCandidates
    simp only [mixedOutputProbability_eq_div _ _ _ hkP,
      mixedOutputProbability_eq_div _ _ _ hkS]
  · intro outs price bp r h
    obtain ⟨-, hr⟩ := single_eq_some h
    subst hr
    rfl
  · intro colls s q hmem
    unfold calcOutputs at hmem
    by_cases htw : totalWeight colls = 0
    · rw [if_pos htw] at hmem
      simp at hmem
    · rw [if_neg htw] at hmem
      obtain ⟨t, ht, heq⟩ := List.mem_map.mp hmem
      simp only [Prod.mk.injEq] at heq
      obtain ⟨-, hq⟩ := heq
      have htmem : t ∈ (possibleOutputs colls).filter
          (fun u => u.collection = t.collection) :=
        List.mem_filter.mpr ⟨ht, by simp⟩
      have hg : (((possibleOutputs colls).filter
          (fun u => u.collection = t.collection)).length : ℚ) ≠ 0 := by
        have hpos : 0 < ((possibleOutputs colls).filter
            (fun u => u.collection = t.collection)).length :=
          List.length_pos.mpr (fun he => by simp [he] at htmem)
        exact_mod_cast Nat.pos_iff_ne_zero.mp hpos
      rw [← hq, div_div]
      rw [mul_comm, ← div_div, div_self hg]

/-- Witness for the amended C1: the mixed-path probability
characterization applied at the concrete 9/1 configuration with pools of
size 1 and 2. -/
theorem mixedProbability_formula_amended_witness :
    (mixedTradeupRecord 9 1 [some 2] [some 3, some 4] 1 1).candidates =
      (acceptedPrices [some 2]).map (fun p => (p,
        (9 : ℚ) / (sumOverCollections 9 1 [some (2:ℚ)].length
          [some (3:ℚ), some 4].length : ℚ))) ++
      (acceptedPrices [some 3, some 4]).map (fun p => (p,
        (1 : ℚ) / (sumOverCollections 9 1 [some (2:ℚ)].length
          [some (3:ℚ), some 4].length : ℚ))) :=
  mixedProbability_formula_amended.1 9 1 [some 2] [some 3, some 4] 1 1 (-100)
    (mixedTradeupRecord 9 1 [some 2] [some 3, some 4] 1 1)
    (by
      norm_num [calculateMixedCollectionTradeup, mixedTradeupRecord,
        mixedCandidates, mixedOutputProbability, sumOverCollections,
        acceptedPrices]
      exact ⟨by simp, fun h => absurd h (by simp)⟩)

/-- Counterexample to C2: in `TradeUpCalculator._calculate_outputs`, a
configuration contributing collection "A" (one marketable successor
output) and collection "B" (no successor outputs, `k_B = 0`) is NOT
discarded — the calculator returns A's output with probability 1, the
probability mass silently rebalanced onto the nonempty collection. -/
theorem probabilitySum_discard_counterexample :
    calcOutputs [⟨"A", [⟨"a1", "A", 5, true⟩]⟩, ⟨"B", []⟩] =
      [(⟨"a1", "A", 5, true⟩, 1)] ∧
    calcOutputs [⟨"A", [⟨"a1", "A", 5, true⟩]⟩, ⟨"B", []⟩] ≠ [] := by
  constructor
  · norm_num [calcOutputs, totalWeight, possibleOutputs]
  · norm_num [calcOutputs, totalWeight, possibleOutputs]

/-- C2 (amended): in the mixed-collection finder an empty successor pool
on either contributing collection discards the configuration, and for a
viable configuration (both pools nonempty, a nonempty primary share) the
code-assigned probabilities summed over the FULL output pools equal 1
exactly; in `TradeUpCalculator._calculate_outputs`, however, a
contributing collection with no successor outputs is silently skipped
(the remaining collections keep the whole probability mass) instead of
the configuration being discarded. -/
theorem probabilitySum_amended :
    (∀ (nP nS : ℕ) (sO : List (Option ℚ)) (pp ssp mp : ℚ),
        calculateMixedCollectionTradeup nP nS [] sO pp ssp mp = none) ∧
    (∀ (nP nS : ℕ) (pO : List (Option ℚ)) (pp ssp mp : ℚ),
        calculateMixedCollectionTradeup nP nS pO [] pp ssp mp = none) ∧
    (∀ nP nS kP kS : ℕ, nP ≠ 0 → kP ≠ 0 → kS ≠ 0 →
        (kP : ℚ) * mixedOutputProbability nP kP (sumOverCollections nP nS kP kS) +
          (kS : ℚ) * mixedOutputProbability nS kS (sumOverCollections nP nS kP kS)
          = 1) ∧
    (∀ (colls : List CalcCollection) (c : String),
        calcOutputs (colls ++ [⟨c, []⟩]) = calcOutputs colls) := by
  refine ⟨?_, ?_, ?_, ?_⟩
  · intro nP nS sO pp ssp mp
    unfold calculateMixedCollectionTradeup
    rw [if_pos (Or.inl rfl)]
  · intro nP nS pO pp ssp mp
    unfold calculateMixedCollectionTradeup
    rw [if_pos (Or.inr rfl)]
  · intro nP nS kP kS hnP hkP hkS
    have hS : sumOverCollections nP nS kP kS ≠ 0 := by
      unfold sumOverCollections
      have h1 : 0 < nP * kP := Nat.pos_of_ne_zero (Nat.mul_ne_zero hnP hkP)
      omega
    have hSQ : ((sumOverCollections nP nS kP kS : ℕ) : ℚ) ≠ 0 :=
      Nat.cast_ne_zero.mpr hS
    rw [mixedOutputProbability_eq_div _ _ _ hkP,
      mixedOutputProbability_eq_div _ _ _ hkS]
    field_simp
    unfold sumOverCollections
    push_cast
    ring
  · intro colls c
    unfold calcOutputs totalWeight possibleOutputs
    simp

/-- Witness for the amended C2: the full-pool probability sum applied at
the concrete viable configuration `n_P = 9`, `n_S = 1`, `k_P = 1`,
`k_S = 2`. -/
theorem probabilitySum_amended_witness :
    ((1 : ℕ) : ℚ) * mixedOutputProbability 9 1 (sumOverCollections 9 1 1 2) +
      ((2 : ℕ) : ℚ) * mixedOutputProbability 1 2 (sumOverCollections 9 1 1 2)
      = 1 :=
  probabilitySum_amended.2.2.1 9 1 1 2 (by norm_num) (by norm_num) (by norm_num)

/-- Counterexample to C3: in the single-collection path with a 2-output
pool of which only one item has an accepted price, the priced output is
assigned probability 1 (renormalized to the priced set), not its
full-pool probability 1/2 — so probabilities ARE renormalized there. -/
theorem expectedValue_renormalization_counterexample :
    calculateSingleCollectionTradeup [some 2, none] (1/100) 0 =
      some ⟨[(2, 1)], 17/10, 8/5, 1600, false, 2⟩ ∧
    (1 : ℚ) ≠ 1 / (([some (2:ℚ), none] : List (Option ℚ)).length : ℚ) := by
  constructor
  · norm_num [calculateSingleCollectionTradeup, singleTradeupRecord,
      singleCandidates, acceptedPrices, listMin, TradeUpResultE.mk.injEq]
  · norm_num

/-- C3 (amended): expected output value sums `price × P` only over
outputs with an accepted price.  In the mixed-collection path the
per-output probabilities `n_C / (n_P·k_P + n_S·k_S)` are those of the
full output pool (not renormalized); in the single-collection path the
probabilities are renormalized to be uniform over the priced outputs
only. -/
theorem expectedValue_accepted_only_amended :
    (∀ (nP nS : ℕ) (pO sO : List (Option ℚ)) (pp ssp mp : ℚ)
        (r : TradeUpResultE),
        calculateMixedCollectionTradeup nP nS pO sO pp ssp mp = some r →
        r.expectedOutputPrice =
          (((acceptedPrices pO).map (fun p => p *
              ((nP : ℚ) / (sumOverCollections nP nS pO.length sO.length : ℚ)))).sum +
            ((acceptedPrices sO).map (fun p => p *
              ((nS : ℚ) / (sumOverCollections nP nS pO.length sO.length : ℚ)))).sum) *
            (85/100)) ∧
    (∀ (outs : List (Option ℚ)) (price bp : ℚ) (r : TradeUpResultE),
        calculateSingleCollectionTradeup outs price bp = some r →
        r.expectedOutputPrice =
          ((acceptedPrices outs).map (fun p => p *
            (1 / ((acceptedPrices outs).length : ℚ)))).sum * (85/100)) := by
  constructor
  · intro nP nS pO sO pp ssp mp r h
    obtain ⟨hp, hs, -, hr⟩ := mixed_eq_some h
    have hkP : pO.length ≠ 0 := fun hl => hp (List.length_eq_zero.mp hl)
    have hkS : sO.length ≠ 0 := fun hl => hs (List.length_eq_zero.mp hl)
    subst hr
    show ((mixedCandidates nP nS pO sO).map (fun c => c.1 * c.2)).sum * (85/100) = _
    unfold mixedCandidates
    simp only [mixedOutputProbability_eq_div _ _ _ hkP,
      mixedOutputProbability_eq_div _ _ _ hkS, List.map_append,
      List.sum_append, List.map_map]
    rfl
  · intro outs price bp r h
    obtain ⟨-, hr⟩ := single_eq_some h
    subst hr
    show ((singleCandidates outs).map (fun c => c.1 * c.2)).sum * (85/100) = _
    unfold singleCandidates
    simp only [List.map_map]
    rfl

/-- Witness for the amended C3: the single-collection expected-value
characterization applied at the concrete pool `[some 2, none]` with input
price 0.01. -/
theorem expectedValue_accepted_only_amended_witness :
    (singleTradeupRecord [some 2, none] (1/100)).expectedOutputPrice =
      ((acceptedPrices [some 2, none]).map (fun p => p *
        (1 / ((acceptedPrices [some (2:ℚ), none]).length : ℚ)))).sum * (85/100) :=
  expectedValue_accepted_only_amended.2 [some 2, none] (1/100) 0
    (singleTradeupRecord [some 2, none] (1/100))
    (by
      norm_num [calculateSingleCollectionTradeup, singleTradeupRecord,
        singleCandidates, acceptedPrices, listMin])

/-- Counterexample to C4: the single-collection path returns a result
with three outputs priced $7.00, input price $0.50 (total cost $5.00);
the minimum output's net value 7 × 0.85 = $5.95 exceeds the $5.00 cost,
yet `guaranteed_profit` is `false` (it is hard-coded, line 353). -/
theorem guaranteedProfit_iff_counterexample :
    calculateSingleCollectionTradeup [some 7, some 7, some 7] (1/2) 0 =
      some ⟨[(7, 1/3), (7, 1/3), (7, 1/3)], 119/20, 19/20, 19, false, 7⟩ ∧
    (1/2 : ℚ) * 10 < 7 * (85/100) := by
  constructor
  · norm_num [calculateSingleCollectionTradeup, singleTradeupRecord,
      singleCandidates, acceptedPrices, listMin, List.foldl, min_def,
      TradeUpResultE.mk.injEq]
    exact fun h => absurd h (List.cons_ne_nil _ _)
  · norm_num

/-- C4 (amended): every result of the finder's single- and
mixed-collection paths carries `guaranteed_profit = false`
unconditionally; in `TradeUpCalculator._calculate_trade_up_value` a
guaranteed profit is reported iff the minimum GROSS output price (no fee
applied) exceeds the total cost. -/
theorem guaranteedProfit_hardcoded_amended :
    (∀ (outs : List (Option ℚ)) (price bp : ℚ) (r : TradeUpResultE),
        calculateSingleCollectionTradeup outs price bp = some r →
        r.guaranteedProfit = false) ∧
    (∀ (nP nS : ℕ) (pO sO : List (Option ℚ)) (pp ssp mp : ℚ)
        (r : TradeUpResultE),
        calculateMixedCollectionTradeup nP nS pO sO pp ssp mp = some r →
        r.guaranteedProfit = false) ∧
    (∀ (h : ℚ × ℚ) (t : List (ℚ × ℚ)) (totalCost : ℚ),
        (calculateTradeUpValue (h :: t) totalCost).2.2.2.isSome ↔
          totalCost < listMin ((h :: t).map (fun o => o.1))) := by
  refine ⟨?_, ?_, ?_⟩
  · intro outs price bp r h
    obtain ⟨-, hr⟩ := single_eq_some h
    subst hr
    rfl
  · intro nP nS pO sO pp ssp mp r h
    obtain ⟨-, -, -, hr⟩ := mixed_eq_some h
    subst hr
    rfl
  · intro h t totalCost
    show (if 0 < (t.map (fun o => o.1)).foldl min h.1 - totalCost
        then some ((t.map (fun o => o.1)).foldl min h.1 - totalCost)
        else none).isSome ↔
      totalCost < listMin ((h :: t).map (fun o => o.1))
    have hmin : listMin ((h :: t).map (fun o => o.1)) =
        (t.map (fun o => o.1)).foldl min h.1 := rfl
    rw [hmin]
    by_cases hc : 0 < (t.map (fun o => o.1)).foldl min h.1 - totalCost
    · simp only [if_pos hc, Option.isSome_some, true_iff]
      linarith
    · rw [if_neg hc]
      have hle := not_lt.mp hc
      constructor
      · intro hfalse
        simp at hfalse
      · intro hlt
        exfalso
        linarith

/-- Witness for the amended C4: the hard-coded `False` applied at the
concrete scenario-C-like configuration (three $7.00 outputs, $0.50
inputs). -/
theorem guaranteedProfit_hardcoded_amended_witness :
    (singleTradeupRecord [some 7, some 7, some 7] (1/2)).guaranteedProfit =
      false :=
  guaranteedProfit_hardcoded_amended.1 [some 7, some 7, some 7] (1/2) 0
    (singleTradeupRecord [some 7, some 7, some 7] (1/2))
    (by
      norm_num [calculateSingleCollectionTradeup, singleTradeupRecord,
        singleCandidates, acceptedPrices, listMin, List.foldl, min_def]
      exact fun h => absurd h (List.cons_ne_nil _ _))

/-- An `invalid` record makes one validation iteration reject with no
authoritative lookup and no record write. -/
lemma invalid_step (r : ValidationRecord) (hr : r.status = .invalid)
    (e : ℚ) (o : Option ℚ) :
    validatePriceItem (some r) e o = ⟨false, none, none⟩ := by
  obtain ⟨st, sprice, dperc⟩ := r
  cases st with
  | invalid => rfl
  | valid => simp at hr
  | unvalidated => simp at hr

/-- C5: once an item's record is `invalid` and no reset has occurred,
every subsequent validation call for that item issues no request to the
Authoritative Price Source and returns a rejected outcome (the item is
excluded from the validated prices). -/
theorem negativeCache_invalid_always_rejects :
    ∀ (r : ValidationRecord), r.status = .invalid →
      ∀ calls : List (ℚ × Option ℚ),
        ∀ s ∈ runValidationCalls (some r) calls,
          s.usedAuthoritativeSource = false ∧ s.accepted = none := by
  intro r hr calls
  induction calls with
  | nil =>
    intro s hs
    simp [runValidationCalls] at hs
  | cons c rest ih =>
    intro s hs
    rw [runValidationCalls, invalid_step r hr c.1 c.2] at hs
    have hrec : recordAfterStep (some r) ⟨false, none, none⟩ = some r := rfl
    rw [hrec] at hs
    rcases List.mem_cons.mp hs with h1 | h2
    · subst h1
      exact ⟨rfl, rfl⟩
    · exact ih s h2

/-- Witness for C5: the negative-cache rejection applied at a concrete
invalid record and a concrete call (external quote $10.00, would-be
authoritative quote $7.00). -/
theorem negativeCache_invalid_always_rejects_witness :
    (validatePriceItem (some ⟨ValidationStatus.invalid, none, none⟩) 10
        (some 7)).usedAuthoritativeSource = false ∧
    (validatePriceItem (some ⟨ValidationStatus.invalid, none, none⟩) 10
        (some 7)).accepted = none :=
  negativeCache_invalid_always_rejects ⟨ValidationStatus.invalid, none, none⟩ rfl
    [(10, some 7)]
    (validatePriceItem (some ⟨ValidationStatus.invalid, none, none⟩) 10 (some 7))
    (by simp [runValidationCalls])

/-- C6: with an available, plausible authoritative price, the discrepancy
`|external − authoritative| / authoritative × 100` decides validation —
within tolerance the item is marked `valid` and the AUTHORITATIVE price
is accepted; beyond tolerance the item is marked `invalid` and rejected.
In particular, external $10.00 against authoritative $7.00 at tolerance
20% gives discrepancy 300/7 ≈ 42.9% > 20, so the item becomes `invalid`
and the price is rejected (scenario D). -/
theorem validation_tolerance_rule :
    (∀ (ext sp tol : ℚ) (rarity : String),
        isPriceReasonable sp rarity = true → 0 < sp →
        |ext - sp| / sp * 100 ≤ tol →
        validateAndCorrectPrice ext rarity (some sp) tol = some sp ∧
        validatePriceItem none ext
            (validateAndCorrectPrice ext rarity (some sp) tol) =
          ⟨true, some sp,
           some ⟨.valid, some sp, some (|ext - sp| / sp * 100)⟩⟩) ∧
    (∀ (ext sp tol : ℚ) (rarity : String),
        isPriceReasonable sp rarity = true → 0 < sp →
        tol < |ext - sp| / sp * 100 →
        validateAndCorrectPrice ext rarity (some sp) tol = none ∧
        validatePriceItem none ext
            (validateAndCorrectPrice ext rarity (some sp) tol) =
          ⟨true, none, some ⟨.invalid, none, none⟩⟩) ∧
    (|(10:ℚ) - 7| / 7 * 100 = 300/7 ∧
     (20:ℚ) < 300/7 ∧
     |300/7 - 429/10| < (1:ℚ)/20 ∧
     validateAndCorrectPrice 10 "Classified" (some 7) 20 = none ∧
     validatePriceItem none 10 (validateAndCorrectPrice 10 "Classified" (some 7) 20) =
       ⟨true, none, some ⟨.invalid, none, none⟩⟩) := by
  refine ⟨?_, ?_, ?_, ?_, ?_, ?_, ?_⟩
  · intro ext sp tol rarity hreason hsp htol
    have h1 : validateAndCorrectPrice ext rarity (some sp) tol = some sp := by
      simp [validateAndCorrectPrice, hreason, hsp, htol]
    refine ⟨h1, ?_⟩
    rw [h1]
    simp [validatePriceItem, hsp]
  · intro ext sp tol rarity hreason hsp htol
    have hnle : ¬(|ext - sp| / sp * 100 ≤ tol) := not_le.mpr htol
    have h1 : validateAndCorrectPrice ext rarity (some sp) tol = none := by
      simp [validateAndCorrectPrice, hreason, hsp, hnle]
    refine ⟨h1, ?_⟩
    rw [h1]
    simp [validatePriceItem]
  · rw [show |(10:ℚ) - 7| = 3 by norm_num [abs_of_pos]]
    norm_num
  · norm_num
  · rw [show |(300:ℚ)/7 - 429/10| = 3/70 by norm_num [abs_of_nonpos]]
    norm_num
  · have : ¬((|(10:ℚ) - 7| / 7 * 100) ≤ 20) := by
      rw [show |(10:ℚ) - 7| = 3 by norm_num [abs_of_pos]]
      norm_num
    simp [validateAndCorrectPrice, isPriceReasonable, maxReasonablePrice, this]
  · have h1 : validateAndCorrectPrice 10 "Classified" (some 7) 20 = none := by
      have : ¬((|(10:ℚ) - 7| / 7 * 100) ≤ 20) := by
        rw [show |(10:ℚ) - 7| = 3 by norm_num [abs_of_pos]]
        norm_num
      simp [validateAndCorrectPrice, isPriceReasonable, maxReasonablePrice, this]
    rw [h1]
    simp [validatePriceItem]

/-- Witness for C6: the within-tolerance branch applied at external quote
$10.00, authoritative $9.00, tolerance 20% (discrepancy 100/9 ≈ 11.1%). -/
theorem validation_tolerance_rule_witness :
    validateAndCorrectPrice 10 "Classified" (some 9) 20 = some 9 ∧
    validatePriceItem none 10 (validateAndCorrectPrice 10 "Classified" (some 9) 20) =
      ⟨true, some 9, some ⟨.valid, some 9, some (|(10:ℚ) - 9| / 9 * 100)⟩⟩ :=
  validation_tolerance_rule.1 10 9 20 "Classified"
    (by
      unfold isPriceReasonable maxReasonablePrice
      rw [if_neg (by decide), if_neg (by decide), if_neg (by decide),
        if_neg (by decide), if_pos (by decide), decide_eq_true_eq]
      norm_num)
    (by norm_num)
    (by
      rw [show |(10:ℚ) - 9| = 1 by norm_num [abs_of_pos]]
      norm_num)

end CSTA
